import Mathlib

/-!
Shallow embedding of the asset-pipeline scripts of `yeti-set-go`
(`asset_generator.py`, `make_transparent.py`) and proofs about the
submit / poll / post-process workflow.

Conventions of the embedding:
* Python floats in the backoff arithmetic are idealised as exact
  rationals (`ℚ`); the quantities compared differ by orders of
  magnitude more than any double-rounding error.
* Wall-clock time advances only at the explicit `time.sleep` calls;
  network latency is abstracted away.
* HTTP transports are modelled as finite lists (or streams) of
  responses, one response consumed per request.
-/

namespace YetiSetGo

/-- The `FluxModel` enum of `asset_generator.py`. -/
inductive FluxModel
  | kontext_pro
  | kontext_max
  | pro_1_1
  | pro
  | dev
deriving DecidableEq, Repr

/-- `FluxModel.value`: the wire name of each model. -/
def FluxModel.value : FluxModel → String
  | .kontext_pro => "flux-kontext-pro"
  | .kontext_max => "flux-kontext-max"
  | .pro_1_1 => "flux-pro-1.1"
  | .pro => "flux-pro"
  | .dev => "flux-dev"

/-- `self.max_concurrent_requests` from `FluxAssetGenerator.__init__`. -/
def max_concurrent_requests : ℤ := 24

/-- `self.max_concurrent_kontext_max` from `FluxAssetGenerator.__init__`. -/
def max_concurrent_kontext_max : ℤ := 6

/-- The ceiling chosen by `_wait_for_rate_limit`:
`max_concurrent_kontext_max` for `KONTEXT_MAX`, else
`max_concurrent_requests`. -/
def maxRequestsFor (m : FluxModel) : ℤ :=
  if m = FluxModel.kontext_max then max_concurrent_kontext_max
  else max_concurrent_requests

/-! ### Poll backoff (`_poll_for_result`)

`wait_time` starts at `2`; on each `Pending` response the code runs
`wait_time = min(wait_time * 1.2, 15)`. -/

/-- One backoff update: `min(wait_time * 1.2, 15)` from
`_poll_for_result`, with `1.2` read as the exact rational `6/5`.
(Python's binary `min` is spelled as a conditional so that the
definition evaluates.) -/
def nextWait (w : ℚ) : ℚ := if w * (6/5) ≤ 15 then w * (6/5) else 15

theorem nextWait_eq_min (w : ℚ) : nextWait w = min (w * (6/5)) 15 :=
  (min_def _ _).symm

/-- The value of `wait_time` after `n` `Pending` iterations of the poll
loop, starting from the initial `wait_time = 2`. -/
def backoffAfter : ℕ → ℚ
  | 0 => 2
  | n + 1 => nextWait (backoffAfter n)

theorem backoffAfter_ten : backoffAfter 10 = 120932352 / 9765625 := by
  norm_num [backoffAfter, nextWait]

/-- C1 (counterexample): after 10 `Pending` iterations the interval is
NOT 15 seconds — `2 * 1.2^10 ≈ 12.38 < 15`, so the 15-second cap has
not yet been reached. -/
theorem backoff_after_ten_ne_fifteen : ¬ (backoffAfter 10 = 15) := by
  norm_num [backoffAfter, nextWait]

/-- C1 (amended): the backoff starts at 2 s, each `Pending` iteration
replaces it by `min(wait * 1.2, 15)`, and after 10 `Pending`
iterations the interval equals `min(2 * 1.2^10, 15) = 2 * 1.2^10 =
120932352/9765625 ≈ 12.38` seconds, which is strictly below the
15-second cap. -/
theorem backoff_after_ten_value :
    backoffAfter 0 = 2 ∧
    (∀ n, backoffAfter (n + 1) = min (backoffAfter n * (6/5)) 15) ∧
    backoffAfter 10 = 2 * (6/5 : ℚ) ^ 10 ∧
    backoffAfter 10 < 15 := by
  refine ⟨rfl, fun n => nextWait_eq_min _, ?_, ?_⟩ <;>
    norm_num [backoffAfter, nextWait]

/-! ### Submission (`_submit_generation_request`)

The transport is a finite list of HTTP responses, one consumed per
`requests.post`.  `random.uniform(5, 15)` draws are supplied by a
stream `rng : ℕ → ℚ` (draw `i` is used for the `i`-th retry sleep). -/

/-- An HTTP response to the submission POST, as discriminated by
`_submit_generation_request`: 200 with the JSON fields it reads,
429, 402, any other status code, or a transport exception. -/
inductive HttpResp
  | ok (id : String) (polling_url : Option String)
  | code429
  | code402
  | codeOther (code : ℕ)
  | exn
deriving DecidableEq, Repr

/-- The task info returned on success:
`{"id": result["id"], "polling_url": polling_url}`. -/
structure Handle where
  id : String
  polling_url : String
deriving DecidableEq, Repr

/-- `self.base_urls["global"]`, the default base URL. -/
def baseUrlGlobal : String := "https://api.bfl.ai"

/-- The polling URL chosen on a 200 response: the server-supplied
`polling_url` if present, else `f"{self.base_url}/v1/get_result?id={result['id']}"`. -/
def pollingUrlOf (base_url : String) (id : String) (purl : Option String) : String :=
  purl.getD (base_url ++ "/v1/get_result?id=" ++ id)

/-- The retry structure of `_submit_generation_request`, viewed through
the sequence of POST responses it will receive.  Returns the result
(`Option Handle`, `None` modelling the Python `None` failure), the
number of POSTs issued, and the list of retry-sleep durations taken.
An exhausted response list stands for a transport that never answers
again and is unreachable under every hypothesis used below. -/
def submitFrom (base_url : String) (rng : ℕ → ℚ) : List HttpResp → ℕ → Option Handle × ℕ × List ℚ
  | [], _ => (none, 0, [])
  | r :: rest, i =>
    match r with
    | .ok id purl => (some ⟨id, pollingUrlOf base_url id purl⟩, 1, [])
    | .code429 =>
      let (res, n, sleeps) := submitFrom base_url rng rest (i + 1)
      (res, n + 1, rng i :: sleeps)
    | .code402 => (none, 1, [])
    | .codeOther _ => (none, 1, [])
    | .exn => (none, 1, [])

/-- C2: a submission answered with HTTP 402 fails immediately: the
result is `None`, exactly one POST is issued, and no retry sleep is
taken, whatever the transport would have answered afterwards. -/
theorem submit_402_terminal (base_url : String) (rng : ℕ → ℚ)
    (rest : List HttpResp) (i : ℕ) :
    submitFrom base_url rng (HttpResp.code402 :: rest) i = (none, 1, []) :=
  rfl

theorem submit_429_retries (base_url : String) (rng : ℕ → ℚ)
    (k : ℕ) (id : String) (purl : Option String) (rest : List HttpResp) :
    ∀ i, submitFrom base_url rng
      (List.replicate k HttpResp.code429 ++ HttpResp.ok id purl :: rest) i =
      (some ⟨id, pollingUrlOf base_url id purl⟩, k + 1,
        (List.range k).map fun j => rng (i + j)) := by
  induction k with
  | zero => intro i; rfl
  | succ m ih =>
    intro i
    have hrange : (List.range (m + 1)).map (fun j => rng (i + j)) =
        rng i :: (List.range m).map fun j => rng (i + 1 + j) := by
      rw [List.range_succ_eq_map]
      simp [Function.comp, Nat.add_comm, Nat.add_assoc, Nat.add_left_comm]
    simp only [List.replicate_succ, List.cons_append, submitFrom, List.append_eq,
      ih (i + 1), hrange]

/-- C3: a submission answered with HTTP 429 sleeps one `uniform(5,15)`
draw and retries the same submission with no retry cap; against a
transport that answers 429 exactly `k` times and then 200, the call
terminates after `k + 1` POSTs with a handle holding the job id and
the polling URL (server-supplied, or constructed from the id), and
every retry sleep lies in `[5, 15]` whenever the uniform draws do. -/
theorem submit_429_eventually_succeeds (base_url : String) (rng : ℕ → ℚ)
    (k : ℕ) (id : String) (purl : Option String) (rest : List HttpResp)
    (hrng : ∀ j, 5 ≤ rng j ∧ rng j ≤ 15) :
    submitFrom base_url rng
      (List.replicate k HttpResp.code429 ++ HttpResp.ok id purl :: rest) 0 =
      (some ⟨id, pollingUrlOf base_url id purl⟩, k + 1,
        (List.range k).map rng) ∧
    (1 ≤ k → (submitFrom base_url rng
      (List.replicate k HttpResp.code429 ++ HttpResp.ok id purl :: rest) 0).2.2 ≠ []) ∧
    ∀ s ∈ (submitFrom base_url rng
      (List.replicate k HttpResp.code429 ++ HttpResp.ok id purl :: rest) 0).2.2,
      5 ≤ s ∧ s ≤ 15 := by
  have h := submit_429_retries base_url rng k id purl rest 0
  simp only [Nat.zero_add] at h
  refine ⟨h, ?_, ?_⟩
  · intro hk
    rw [h]
    rcases k with _ | m
    · omega
    · simp [List.range_succ_eq_map]
  · intro s hs
    rw [h] at hs
    rcases List.mem_map.mp hs with ⟨j, _, rfl⟩
    exact hrng j

theorem submit_429_eventually_succeeds_witness :
    submitFrom baseUrlGlobal (fun _ => 10)
      (List.replicate 2 HttpResp.code429 ++ HttpResp.ok "task7" none :: []) 0 =
      (some ⟨"task7", pollingUrlOf baseUrlGlobal "task7" none⟩, 3,
        (List.range 2).map fun _ => (10 : ℚ)) ∧
    (1 ≤ 2 → (submitFrom baseUrlGlobal (fun _ => 10)
      (List.replicate 2 HttpResp.code429 ++ HttpResp.ok "task7" none :: []) 0).2.2 ≠ []) ∧
    ∀ s ∈ (submitFrom baseUrlGlobal (fun _ => 10)
      (List.replicate 2 HttpResp.code429 ++ HttpResp.ok "task7" none :: []) 0).2.2,
      5 ≤ s ∧ s ≤ 15 :=
  submit_429_eventually_succeeds baseUrlGlobal (fun _ => 10) 2 "task7" none []
    (fun _ => by norm_num)

/-! ### The in-flight counter (`_wait_for_rate_limit` and the
`active_requests` bookkeeping of `_submit_generation_request`)

`_submit_generation_request` first calls `_wait_for_rate_limit` (which
busy-waits `while self.active_requests >= max_requests`), then does
`self.active_requests += 1`, runs the request inside `try`, and the
`finally` block does `self.active_requests -= 1`.  The 429 branch
recurses *inside* the `try`, so nested retries stack increments.  The
driver is single-threaded, so a wait that starts with the counter at
the ceiling never wakes up: that execution is modelled as `blocked`
(the counter is then frozen and the pending `finally` blocks never
run). -/

/-- Outcome of one (possibly nested) `_submit_generation_request`
execution in the counter model. -/
inductive SubmitOutcome
  | success (h : Handle)
  | failure
  | blocked
deriving DecidableEq, Repr

/-- `_submit_generation_request` with the `active_requests` counter made
explicit.  Input: ceiling, base URL, remaining transport responses,
current counter.  Output: outcome, final counter value, and the list of
counter values observed after each mutation (`+= 1` or `-= 1`), in
order. -/
def submitRun (ceil : ℤ) (base_url : String) :
    List HttpResp → ℤ → SubmitOutcome × ℤ × List ℤ
  | resps, c =>
    if c < ceil then
      -- `_wait_for_rate_limit` falls through; `self.active_requests += 1`
      match resps with
      | [] =>
        -- `requests.post` raises; `except` returns None, `finally` decrements
        (.failure, c, [c + 1, c])
      | r :: rest =>
        match r with
        | .ok id purl =>
          (.success ⟨id, pollingUrlOf base_url id purl⟩, c, [c + 1, c])
        | .code429 =>
          match submitRun ceil base_url rest (c + 1) with
          | (.blocked, c2, tr) => (.blocked, c2, (c + 1) :: tr)
          | (out, c2, tr) => (out, c2 - 1, (c + 1) :: tr ++ [c2 - 1])
        | .code402 => (.failure, c, [c + 1, c])
        | .codeOther _ => (.failure, c, [c + 1, c])
        | .exn => (.failure, c, [c + 1, c])
    else
      -- single-threaded busy-wait never observes a decrement: deadlock
      (.blocked, c, [])

theorem submitRun_bounds (ceil : ℤ) (base_url : String) :
    ∀ (resps : List HttpResp) (c : ℤ), c ≤ ceil →
      (∀ v ∈ (submitRun ceil base_url resps c).2.2, c ≤ v ∧ v ≤ ceil) ∧
      ((submitRun ceil base_url resps c).1 ≠ SubmitOutcome.blocked →
        (submitRun ceil base_url resps c).2.1 = c) ∧
      (c ≤ (submitRun ceil base_url resps c).2.1 ∧
        (submitRun ceil base_url resps c).2.1 ≤ ceil) := by
  intro resps
  induction resps with
  | nil =>
    intro c hcc
    by_cases hc : c < ceil
    · simp only [submitRun, if_pos hc]
      refine ⟨?_, fun _ => trivial, le_refl c, hcc⟩
      intro v hv
      simp only [List.mem_cons, List.not_mem_nil, or_false] at hv
      rcases hv with hv | hv <;> omega
    · simp only [submitRun, if_neg hc]
      exact ⟨by simp, fun h => absurd rfl h, le_refl c, hcc⟩
  | cons r rest ih =>
    intro c hcc
    by_cases hc : c < ceil
    · cases r with
      | code429 =>
        have key := ih (c + 1) (by omega)
        simp only [submitRun, if_pos hc]
        rcases hrun : submitRun ceil base_url rest (c + 1) with ⟨out, c2, tr⟩
        rw [hrun] at key
        simp only at key
        cases out with
        | blocked =>
          dsimp only
          refine ⟨?_, fun h => absurd rfl h, ?_, key.2.2.2⟩
          · intro v hv
            simp only [List.mem_cons] at hv
            rcases hv with hv | hv
            · omega
            · obtain ⟨h1, h2⟩ := key.1 v hv
              exact ⟨by omega, h2⟩
          · have := key.2.2.1
            omega
        | success hd =>
          dsimp only
          have hc2 : c2 = c + 1 := key.2.1 (by simp)
          refine ⟨?_, fun _ => by omega, by omega, by omega⟩
          intro v hv
          simp only [List.mem_cons, List.mem_append, List.mem_singleton,
            List.not_mem_nil, or_false] at hv
          rcases hv with (hv | hv) | hv
          · omega
          · obtain ⟨h1, h2⟩ := key.1 v hv
            exact ⟨by omega, h2⟩
          · omega
        | failure =>
          dsimp only
          have hc2 : c2 = c + 1 := key.2.1 (by simp)
          refine ⟨?_, fun _ => by omega, by omega, by omega⟩
          intro v hv
          simp only [List.mem_cons, List.mem_append, List.mem_singleton,
            List.not_mem_nil, or_false] at hv
          rcases hv with (hv | hv) | hv
          · omega
          · obtain ⟨h1, h2⟩ := key.1 v hv
            exact ⟨by omega, h2⟩
          · omega
      | ok id purl =>
        simp only [submitRun, if_pos hc]
        refine ⟨?_, fun _ => trivial, le_refl c, hcc⟩
        intro v hv
        simp only [List.mem_cons, List.not_mem_nil, or_false] at hv
        rcases hv with hv | hv <;> omega
      | code402 =>
        simp only [submitRun, if_pos hc]
        refine ⟨?_, fun _ => trivial, le_refl c, hcc⟩
        intro v hv
        simp only [List.mem_cons, List.not_mem_nil, or_false] at hv
        rcases hv with hv | hv <;> omega
      | codeOther code =>
        simp only [submitRun, if_pos hc]
        refine ⟨?_, fun _ => trivial, le_refl c, hcc⟩
        intro v hv
        simp only [List.mem_cons, List.not_mem_nil, or_false] at hv
        rcases hv with hv | hv <;> omega
      | exn =>
        simp only [submitRun, if_pos hc]
        refine ⟨?_, fun _ => trivial, le_refl c, hcc⟩
        intro v hv
        simp only [List.mem_cons, List.not_mem_nil, or_false] at hv
        rcases hv with hv | hv <;> omega
    · simp only [submitRun, if_neg hc]
      exact ⟨by simp, fun h => absurd rfl h, le_refl c, hcc⟩

/-- C4: starting from `active_requests = 0`, a submission run for model
`m` (ceiling 6 for `kontext-max`, 24 otherwise) keeps every observed
counter value within `[0, ceiling]` — the increment happens only after
the rate-limit wait sees the counter strictly below the ceiling, and
every exit path (success, error response, exception, and each level of
the recursive 429 retry) decrements — and when the run does not
deadlock in the rate-limit wait the counter returns to exactly 0. -/
theorem active_requests_invariant (m : FluxModel) (base_url : String)
    (resps : List HttpResp) :
    (∀ v ∈ (submitRun (maxRequestsFor m) base_url resps 0).2.2,
      0 ≤ v ∧ v ≤ maxRequestsFor m) ∧
    ((submitRun (maxRequestsFor m) base_url resps 0).1 ≠ SubmitOutcome.blocked →
      (submitRun (maxRequestsFor m) base_url resps 0).2.1 = 0) := by
  have hceil : (0 : ℤ) ≤ maxRequestsFor m := by
    cases m <;> simp [maxRequestsFor, max_concurrent_requests, max_concurrent_kontext_max]
  have h := submitRun_bounds (maxRequestsFor m) base_url resps 0 hceil
  exact ⟨h.1, h.2.1⟩

/-! ### Polling (`_poll_for_result`)

The status stream is a function `ℕ → PollResp` (response to the `i`-th
GET).  Wall-clock time advances only at `time.sleep(wait_time)`, so
`elapsed` is the sum of the sleeps taken so far; the loop guard is
`time.time() - start_time < timeout`.  Termination of the Lean
recursion is by fuel; every theorem below holds for arbitrary fuel, and
since `wait_time ≥ 2` throughout, any fuel above `timeout / 2 + 1`
iterations is never exhausted. -/

/-- A response to one polling GET, as discriminated by
`_poll_for_result`: HTTP 200 with status `Ready` (and whether the
subsequent image download returns HTTP 200), `Error`,
`Content Moderated`, `Pending`, an unknown status string, a non-200
polling response, or a transport exception. -/
inductive PollResp
  | ready (bytes : ℕ) (downloadOk : Bool)
  | error
  | moderated
  | pending (progress : ℕ)
  | otherStatus (s : String)
  | httpErr (code : ℕ)
  | exn
deriving DecidableEq, Repr

/-- Is this response `status == "Pending"`? -/
def PollResp.isPending : PollResp → Prop
  | .pending _ => True
  | _ => False

instance (r : PollResp) : Decidable r.isPending := by
  cases r <;> simp [PollResp.isPending] <;> infer_instance

/-- The loop of `_poll_for_result`.  Arguments mirror the Python local
state: `elapsed = time.time() - start_time`, `wait = wait_time`, `i` =
index of the next GET.  Returns the result (`some bytes` on a
successful download, `none` on any failure including timeout) and the
number of loop-body iterations executed.

A 200 response with an unknown status string matches none of the
`if/elif` arms: the loop falls through *without sleeping* and re-checks
the guard, which the embedding folds into an iteration that advances
neither clock nor backoff. -/
def pollLoop (stream : ℕ → PollResp) (timeout : ℚ) :
    ℕ → ℚ → ℚ → ℕ → Option ℕ × ℕ
  | 0, _, _, _ => (none, 0)
  | fuel + 1, elapsed, wait, i =>
    if elapsed < timeout then
      match stream i with
      | .ready bytes dlOk => (if dlOk then some bytes else none, 1)
      | .error => (none, 1)
      | .moderated => (none, 1)
      | .pending _ =>
        let next := pollLoop stream timeout fuel (elapsed + wait) (nextWait wait) (i + 1)
        (next.1, next.2 + 1)
      | .otherStatus _ =>
        let next := pollLoop stream timeout fuel elapsed wait (i + 1)
        (next.1, next.2 + 1)
      | .httpErr _ => (none, 1)
      | .exn => (none, 1)
    else (none, 0)

/-- `_poll_for_result(task_info, timeout=300)`: the loop starts with
`wait_time = 2`, zero elapsed time, polling from the first response. -/
def pollForResult (stream : ℕ → PollResp) (timeout : ℚ) (fuel : ℕ) : Option ℕ × ℕ :=
  pollLoop stream timeout fuel 0 2 0

theorem pollLoop_pending_none (stream : ℕ → PollResp) (timeout : ℚ)
    (hstream : ∀ j, (stream j).isPending) :
    ∀ (fuel : ℕ) (elapsed wait : ℚ) (i : ℕ),
      (pollLoop stream timeout fuel elapsed wait i).1 = none := by
  intro fuel
  induction fuel with
  | zero => intro elapsed wait i; rfl
  | succ n ih =>
    intro elapsed wait i
    by_cases he : elapsed < timeout
    · have hp := hstream i
      rcases hs : stream i with _ | _ | _ | p | _ | _ | _
      all_goals rw [hs] at hp
      all_goals simp only [PollResp.isPending] at hp
      simp [pollLoop, if_pos he, hs, ih]
    · simp only [pollLoop, if_neg he]

theorem nextWait_ge_two {w : ℚ} (hw : 2 ≤ w) : 2 ≤ nextWait w := by
  rw [nextWait]
  split <;> [linarith; norm_num]

theorem pollLoop_iter_bound (stream : ℕ → PollResp) (timeout : ℚ)
    (hstream : ∀ j, (stream j).isPending) :
    ∀ (fuel : ℕ) (elapsed wait : ℚ) (i : ℕ), 2 ≤ wait →
      (pollLoop stream timeout fuel elapsed wait i).2 ≠ 0 →
      elapsed + 2 * (((pollLoop stream timeout fuel elapsed wait i).2 : ℚ) - 1)
        < timeout := by
  intro fuel
  induction fuel with
  | zero => intro elapsed wait i _ hn; exact absurd rfl hn
  | succ n ih =>
    intro elapsed wait i hw hn
    by_cases he : elapsed < timeout
    · have hp := hstream i
      rcases hs : stream i with _ | _ | _ | p | _ | _ | _ <;>
          rw [hs] at hp <;> simp [PollResp.isPending] at hp
      simp only [pollLoop, if_pos he, hs] at hn ⊢
      rcases hm : (pollLoop stream timeout n (elapsed + wait) (nextWait wait) (i + 1)).2
        with _ | m
      · simpa [hm] using he
      · have := ih (elapsed + wait) (nextWait wait) (i + 1) (nextWait_ge_two hw)
          (by rw [hm]; exact Nat.succ_ne_zero m)
        rw [hm] at this
        push_cast at this ⊢
        linarith
    · simp only [pollLoop, if_neg he] at hn
      exact absurd rfl hn

/-- C5: on a run in which no poll ever reaches a terminal status (every
response is `Pending`), `_poll_for_result` returns `None` (the timeout
failure), and the loop body executes only while the elapsed wall-clock
time is below the timeout: with sleeps of at least 2 seconds per
iteration, an execution of `n ≥ 1` iterations implies
`2 * (n - 1) < timeout`. -/
theorem poll_timeout_on_no_terminal (stream : ℕ → PollResp) (timeout : ℚ)
    (fuel : ℕ) (hstream : ∀ j, (stream j).isPending) :
    (pollForResult stream timeout fuel).1 = none ∧
    ((pollForResult stream timeout fuel).2 ≠ 0 →
      2 * (((pollForResult stream timeout fuel).2 : ℚ) - 1) < timeout) := by
  refine ⟨pollLoop_pending_none stream timeout hstream fuel 0 2 0, fun hn => ?_⟩
  have h := pollLoop_iter_bound stream timeout hstream fuel 0 2 0 (le_refl 2) hn
  simpa using h

theorem poll_timeout_on_no_terminal_witness :
    (pollForResult (fun _ => PollResp.pending 0) 5 10).1 = none ∧
    ((pollForResult (fun _ => PollResp.pending 0) 5 10).2 ≠ 0 →
      2 * (((pollForResult (fun _ => PollResp.pending 0) 5 10).2 : ℚ) - 1) < 5) :=
  poll_timeout_on_no_terminal (fun _ => PollResp.pending 0) 5 10
    (fun _ => by simp [PollResp.isPending])

/-! ### Post-processing (`post_process_image`)

PIL images are embedded at the granularity the claims need: colour
mode and dimensions.  Pixel contents after a LANCZOS resize or a
SHARPEN filter are outside the embedding; both operations preserve
mode and size, which is what the model records.  PNG round-tripping
(`img.save` then `Image.open`) is identity at this granularity. -/

/-- PIL colour modes distinguished by the code (`img.mode != "RGBA"`). -/
inductive PMode
  | RGBA
  | RGB
  | L
  | P
  | LA
  | other (s : String)
deriving DecidableEq, Repr

/-- A decoded PIL image, at mode/size granularity. -/
structure PImage where
  mode : PMode
  width : ℕ
  height : ℕ
deriving DecidableEq, Repr

/-- `img.convert("RGBA")`. -/
def PImage.convertRGBA (img : PImage) : PImage :=
  { img with mode := PMode.RGBA }

/-- `img.resize(target_size, Image.LANCZOS)`: sets the dimensions to
the target, keeps the mode. -/
def PImage.resizeTo (img : PImage) (target : ℕ × ℕ) : PImage :=
  { img with width := target.1, height := target.2 }

/-- `img.filter(ImageFilter.SHARPEN)`: preserves mode and dimensions
(pixel values are outside the embedding's granularity). -/
def PImage.sharpen (img : PImage) : PImage := img

/-- `post_process_image(image_data, target_size)`.  The input is the
result of `Image.open` on the raw bytes: `none` when decoding (or any
later PIL step) raises, in which case the `except` arm returns `None`.
Otherwise: convert to RGBA if the mode lacks it, LANCZOS-resize to
the target, sharpen if both target dimensions are ≤ 64, re-encode as
PNG. -/
def post_process_image (decoded : Option PImage) (target : ℕ × ℕ) : Option PImage :=
  match decoded with
  | none => none
  | some img =>
    let img := if img.mode ≠ PMode.RGBA then img.convertRGBA else img
    let img := img.resizeTo target
    let img := if target.1 ≤ 64 ∧ target.2 ≤ 64 then img.sharpen else img
    some img

/-- C6: whenever `post_process_image` succeeds, the produced image is
in RGBA mode with exactly the requested target dimensions (the input
is converted to RGBA whenever its mode lacks alpha), and re-processing
that output at the same target size succeeds and is idempotent in mode
and dimensions — it returns the very same mode and size again. -/
theorem post_process_rgba_exact (decoded : Option PImage) (target : ℕ × ℕ)
    (img : PImage) (h : post_process_image decoded target = some img) :
    img.mode = PMode.RGBA ∧ img.width = target.1 ∧ img.height = target.2 ∧
    post_process_image (some img) target = some img := by
  match decoded with
  | none => exact absurd h (by simp [post_process_image])
  | some src =>
    simp only [post_process_image] at h
    by_cases hm : src.mode ≠ PMode.RGBA <;>
      by_cases hs : target.1 ≤ 64 ∧ target.2 ≤ 64 <;>
      · simp only [hm, hs, if_true, if_false, reduceIte, Option.some_inj] at h
        subst h
        refine ⟨?_, rfl, rfl, ?_⟩ <;>
          simp_all [PImage.convertRGBA, PImage.resizeTo, PImage.sharpen,
            post_process_image]

theorem post_process_rgba_exact_witness :
    post_process_image (some ⟨PMode.RGB, 512, 512⟩) (60, 60) =
      some ⟨PMode.RGBA, 60, 60⟩ ∧
    (PImage.mk PMode.RGBA 60 60).mode = PMode.RGBA ∧
    (PImage.mk PMode.RGBA 60 60).width = 60 ∧
    (PImage.mk PMode.RGBA 60 60).height = 60 ∧
    post_process_image (some ⟨PMode.RGBA, 60, 60⟩) (60, 60) =
      some ⟨PMode.RGBA, 60, 60⟩ := by
  have h : post_process_image (some ⟨PMode.RGB, 512, 512⟩) (60, 60) =
      some ⟨PMode.RGBA, 60, 60⟩ := by
    simp [post_process_image, PImage.convertRGBA, PImage.resizeTo, PImage.sharpen]
  have k := post_process_rgba_exact (some ⟨PMode.RGB, 512, 512⟩) (60, 60)
    ⟨PMode.RGBA, 60, 60⟩ h
  exact ⟨h, k.1, k.2.1, k.2.2.1, k.2.2.2⟩

/-! ### `generate_asset`

`generate_asset(spec, variation)` builds the prompt, optionally
encodes a reference image, calls `generate_image` (submit + poll),
post-processes, and only then opens the output file and writes the
processed bytes.  The embedding records the list of files written. -/

/-- The outcome of `generate_asset`, at the granularity of C7: the
returned boolean and the files written to the output directory
(recorded as their processed image). -/
def generate_asset (imageData : Option (Option PImage)) (specSize : ℕ × ℕ) :
    Bool × List PImage :=
  match imageData with
  | none => (false, [])
  | some decoded =>
    match post_process_image decoded specSize with
    | none => (false, [])
    | some img => (true, [img])

/-- C7: if image generation yields no bytes (`generate_image` returned
`None`, e.g. because every poll reports status `Error`, which makes
`_poll_for_result` return `None`) or post-processing fails,
`generate_asset` returns `False` and writes no file. -/
theorem generate_asset_failure_writes_nothing
    (imageData : Option (Option PImage)) (specSize : ℕ × ℕ)
    (hfail : imageData = none ∨
      ∀ d, imageData = some d → post_process_image d specSize = none) :
    generate_asset imageData specSize = (false, []) ∧
    ∀ (stream : ℕ → PollResp) (timeout : ℚ) (fuel : ℕ),
      (∀ j, stream j = PollResp.error) →
      (pollForResult stream timeout fuel).1 = none := by
  constructor
  · rcases hfail with rfl | hpp
    · rfl
    · match imageData, hpp with
      | none, _ => rfl
      | some d, hpp =>
        simp only [generate_asset, hpp d rfl]
  · intro stream timeout fuel hstream
    rcases fuel with _ | n
    · rfl
    · by_cases he : (0 : ℚ) < timeout
      · simp [pollForResult, pollLoop, if_pos he, hstream 0]
      · simp [pollForResult, pollLoop, if_neg he]

theorem generate_asset_failure_writes_nothing_witness :
    generate_asset (some none) (60, 60) = (false, []) ∧
    ∀ (stream : ℕ → PollResp) (timeout : ℚ) (fuel : ℕ),
      (∀ j, stream j = PollResp.error) →
      (pollForResult stream timeout fuel).1 = none :=
  generate_asset_failure_writes_nothing (some none) (60, 60)
    (Or.inr fun d hd => by cases hd; rfl)

/-! ### Exception propagation through `generate_asset` / `generate_batch`

`_submit_generation_request` and `_poll_for_result` wrap their bodies
in `try/except` and convert every exception into a `None` return, and
`post_process_image` does the same — those stages are already folded
into the `Option`s above.  But `generate_asset` itself runs
`self._encode_image_to_base64(...)` (an `open` with no handler) and
`open(filepath, "wb"); f.write(...)` (no handler), and `generate_batch`
calls `generate_asset` with no handler either, so an exception at
either unguarded point escapes to the orchestration caller. -/

/-- A Python exception, as far as the embedding distinguishes them. -/
inductive PyExn
  | oserror (msg : String)
  | attributeError (name : String)
deriving DecidableEq, Repr

/-- The environment one `generate_asset` call runs in: whether encoding
the reference image raises, what `generate_image` returns (`none` =
generation failed; `some none` = bytes that do not decode; `some (some
img)` = bytes decoding to `img`), and whether the final
`open`/`write` of the output file raises. -/
structure AssetEnv where
  refEncodeRaises : Option PyExn
  imageData : Option (Option PImage)
  writeRaises : Option PyExn
deriving DecidableEq, Repr

/-- `generate_asset` with the unguarded exception points made explicit.
Returns `Except`: `.error` is an exception escaping the call, `.ok`
carries the boolean result and the files written. -/
def generate_asset_exn (env : AssetEnv) (hasRef : Bool) (specSize : ℕ × ℕ) :
    Except PyExn (Bool × List PImage) :=
  -- `_encode_image_to_base64`: `open(image_path, "rb")`, no try/except
  match (if hasRef then env.refEncodeRaises else none) with
  | some e => .error e
  | none =>
    -- `generate_image`: submit + poll, all exceptions caught internally
    match env.imageData with
    | none => .ok (false, [])
    | some decoded =>
      match post_process_image decoded specSize with
      | none => .ok (false, [])
      | some img =>
        -- `open(filepath, "wb")` / `f.write(...)`: no try/except
        match env.writeRaises with
        | some e => .error e
        | none => .ok (true, [img])

/-- `generate_batch`'s per-asset loop: each `generate_asset` call is
made with no exception handler around it; the first escaping exception
aborts the whole batch.  Returns the number of successful assets. -/
def generate_batch_exn : List (AssetEnv × Bool × (ℕ × ℕ)) → Except PyExn ℕ
  | [] => .ok 0
  | (env, hasRef, size) :: rest =>
    match generate_asset_exn env hasRef size with
    | .error e => .error e
    | .ok (succ, _) =>
      match generate_batch_exn rest with
      | .error e => .error e
      | .ok n => .ok (n + (if succ then 1 else 0))

/-- C8 (counterexample): an `OSError` raised by the final output-file
write is NOT caught at the asset boundary: `generate_asset` propagates
it, and it crosses into `generate_batch`'s caller. -/
theorem write_exn_escapes_batch :
    generate_asset_exn
      ⟨none, some (some ⟨PMode.RGB, 512, 512⟩), some (PyExn.oserror "disk full")⟩
      false (60, 60) = Except.error (PyExn.oserror "disk full") ∧
    generate_batch_exn
      [(⟨none, some (some ⟨PMode.RGB, 512, 512⟩), some (PyExn.oserror "disk full")⟩,
        false, (60, 60))] = Except.error (PyExn.oserror "disk full") :=
  ⟨rfl, rfl⟩

/-- C8 (amended): failures inside submission, polling, and
post-processing are caught inside those stages and surface from
`generate_asset` as a boolean `False` with no exception — provided the
unguarded points (reference-image encoding and the final output-file
write) do not raise; exceptions at those two points are not caught at
the asset boundary and do propagate into the batch caller. -/
theorem asset_boundary_catches_stage_failures (env : AssetEnv) (hasRef : Bool)
    (size : ℕ × ℕ) (hwrite : env.writeRaises = none)
    (href : hasRef = false ∨ env.refEncodeRaises = none) :
    ∃ r, generate_asset_exn env hasRef size = Except.ok r := by
  have hr : (if hasRef then env.refEncodeRaises else none) = none := by
    rcases href with rfl | h
    · rfl
    · simp [h]
  rcases env with ⟨re, idata, wr⟩
  simp only at hr hwrite
  subst hwrite
  match idata with
  | none => exact ⟨(false, []), by simp [generate_asset_exn, hr]⟩
  | some decoded =>
    match hpp : post_process_image decoded size with
    | none => exact ⟨(false, []), by simp [generate_asset_exn, hr, hpp]⟩
    | some img => exact ⟨(true, [img]), by simp [generate_asset_exn, hr, hpp]⟩

theorem asset_boundary_catches_stage_failures_witness :
    ∃ r, generate_asset_exn ⟨none, none, none⟩ false (60, 60) = Except.ok r :=
  asset_boundary_catches_stage_failures ⟨none, none, none⟩ false (60, 60)
    rfl (Or.inl rfl)

/-! ### `edit_image` and the missing `style_base` attribute -/

/-- The attribute names assigned on `self` in
`FluxAssetGenerator.__init__` (no other method assigns new attributes
on `self`, and no `setattr` is used anywhere in the file). -/
def initAttrs : List String :=
  ["api_key", "base_urls", "base_url", "output_dir",
   "max_concurrent_requests", "max_concurrent_kontext_max",
   "active_requests", "logger", "brand_colors",
   "yeti_style", "icon_style", "environment_style", "asset_specs"]

/-- Python attribute lookup on the generator instance: a name not bound
on the instance raises `AttributeError`. -/
def getattrSelf (name : String) : Except PyExn Unit :=
  if name ∈ initAttrs then Except.ok () else Except.error (PyExn.attributeError name)

/-- `edit_image(input_image_path, edit_prompt, output_name, model)`.
If the input path does not exist, log and return `False`.  Otherwise
encode the input image, then build
`full_prompt = f"{edit_prompt}, {self.style_base}"` — an attribute
read on `self` — and only afterwards call `generate_image` (the first
submission POST).  Returns the outcome together with the number of
submission requests issued before the call ends. -/
def edit_image (inputExists : Bool) (genResult : Option ℕ) :
    Except PyExn Bool × ℕ :=
  if inputExists = false then (Except.ok false, 0)
  else
    match getattrSelf "style_base" with
    | Except.error e => (Except.error e, 0)
    | Except.ok _ =>
      match genResult with
      | none => (Except.ok false, 1)
      | some _ => (Except.ok true, 1)

/-- C9: `style_base` is never assigned in `FluxAssetGenerator.__init__`
(only `yeti_style`, `icon_style` and `environment_style` are), so every
`edit_image` call whose input path exists raises `AttributeError`
before issuing any submission request, and in particular never returns
`True`. -/
theorem edit_image_raises_attribute_error (genResult : Option ℕ) :
    "style_base" ∉ initAttrs ∧
    edit_image true genResult =
      (Except.error (PyExn.attributeError "style_base"), 0) ∧
    ∀ r, edit_image true genResult ≠ (Except.ok true, r) := by
  have hmem : "style_base" ∉ initAttrs := by simp [initAttrs]
  have heq : edit_image true genResult =
      (Except.error (PyExn.attributeError "style_base"), 0) := by
    simp [edit_image, getattrSelf, hmem]
  refine ⟨hmem, heq, fun r h => ?_⟩
  rw [heq] at h
  exact absurd (congrArg Prod.fst h) (by simp)

/-! ### `make_transparent` (make_transparent.py) -/

/-- An RGBA pixel (one `item` of `img.getdata()`). -/
structure RGBAPixel where
  r : ℕ
  g : ℕ
  b : ℕ
  a : ℕ
deriving DecidableEq, Repr

/-- An image after `Image.open(input_path).convert("RGBA")`: dimensions
plus the flat pixel list that `getdata()` yields. -/
structure RGBAImage where
  width : ℕ
  height : ℕ
  pixels : List RGBAPixel
deriving DecidableEq, Repr

/-- The file written by `img.save(output_path, "PNG")`. -/
structure SavedFile where
  path : String
  format : String
  image : RGBAImage
deriving DecidableEq, Repr

/-- `make_transparent(input_path, output_path)`: for each pixel, if
`item[0] > 240 and item[1] > 240 and item[2] > 240` append the
transparent pixel `(255, 255, 255, 0)`, else keep the original;
`putdata` keeps the dimensions; save as PNG. -/
def make_transparent (img : RGBAImage) (output_path : String) : SavedFile :=
  { path := output_path
    format := "PNG"
    image :=
      { img with
        pixels := img.pixels.map fun item =>
          if item.r > 240 ∧ item.g > 240 ∧ item.b > 240 then
            ⟨255, 255, 255, 0⟩
          else item } }

/-- C10: `make_transparent` maps each pixel of the RGBA input
independently — a pixel whose red, green and blue components are all
strictly greater than 240 becomes the fully transparent
`(255, 255, 255, 0)`, every other pixel is unchanged — and the output
keeps the input's dimensions and is saved in PNG format. -/
theorem make_transparent_pixel_map (img : RGBAImage) (output_path : String) :
    (make_transparent img output_path).format = "PNG" ∧
    (make_transparent img output_path).image.width = img.width ∧
    (make_transparent img output_path).image.height = img.height ∧
    (make_transparent img output_path).image.pixels =
      img.pixels.map (fun item =>
        if 240 < item.r ∧ 240 < item.g ∧ 240 < item.b then
          RGBAPixel.mk 255 255 255 0
        else item) :=
  ⟨rfl, rfl, rfl, rfl⟩

end YetiSetGo
